import Mathlib

/-!
Verification of the core logic of an Atlassian/Jira bulk-administration
command-line tool (`src/main.py`): the query builder `get_query`, the
paginated result iterator `iterate_jql_results`, the ownership-remap
handler `remap_user` and the watcher-copy handler `copy_watchers`.

The remote Jira API is modelled as explicit data: the search backend is
the sequence of pages it answers to successive fetches (or a function
from query string to that sequence), and mutation failures are an oracle
from issue key to a Bool saying whether the remote call raises.
-/

namespace AtlassianToolkit

/-- The fixed page size used by the iterator (`limit = 100` in
`iterate_jql_results`); a policy constant, not user-configurable. -/
def page_limit : Nat := 100

/-- Python truthiness of a `str | None` value: None and the empty
string are falsy, every other string is truthy. -/
def str_truthy : Option String → Bool
  | none => false
  | some s => s != ""

/-- Embedding of `get_query(seed_query, cutoff_date)`: start from
`seed_query or ''`; if `cutoff_date` is truthy (present and non-empty,
Python's `if cutoff_date:`) append
` Updated >= "<cutoff>" ORDER BY Updated ASC`, otherwise append
` ORDER BY Updated ASC`. -/
def get_query (seed_query : Option String) (cutoff_date : Option String) : String :=
  let query := seed_query.getD ""
  if str_truthy cutoff_date then
    query ++ (" Updated >= \"" ++ cutoff_date.getD "" ++ "\" ORDER BY Updated ASC")
  else
    query ++ " ORDER BY Updated ASC"

/-- Embedding of `iterate_jql_results(jira_api, query)`.  The backend is
modelled by the list of pages it returns to successive `jql` fetches; an
exhausted backend answers any further fetch with an empty page.  The
result is the list of records yielded by the generator together with the
fetch log: one `(start offset, number of records returned)` pair per
`jql` call, in order.  The loop yields each page, then stops if the page
is shorter than `page_limit`, and otherwise advances `start` by the
number of records returned. -/
def iterate_jql_results {α : Type} : List (List α) → Nat → List α × List (Nat × Nat)
  | [], start => ([], [(start, 0)])
  | page :: rest, start =>
    if page.length < page_limit then
      (page, [(start, page.length)])
    else
      let r := iterate_jql_results rest (start + page.length)
      (page ++ r.1, (start, page.length) :: r.2)

/-- Specification-side helper: the pages the iterator actually fetches,
namely the initial segment of the backend's pages up to and including
the first page shorter than `page_limit` (with a final empty page when
the backend runs out before any short page). -/
def fetched_pages {α : Type} : List (List α) → List (List α)
  | [] => [[]]
  | page :: rest =>
    if page.length < page_limit then [page] else page :: fetched_pages rest

/-- Specification-side helper: the expected fetch log for a given list
of fetched pages starting at a given offset: each fetch happens at the
running offset, which advances by the length of the page returned. -/
def fetch_log {α : Type} (start : Nat) : List (List α) → List (Nat × Nat)
  | [] => []
  | page :: rest => (start, page.length) :: fetch_log (start + page.length) rest

/-- Specification-side predicate: every fetched page except the last has
length at least `page_limit`, and the last is strictly shorter — i.e.
iteration stops immediately after the first short page. -/
def stops_at_first_short {α : Type} : List (List α) → Prop
  | [] => False
  | [page] => page.length < page_limit
  | page :: page' :: rest =>
    page_limit ≤ page.length ∧ stops_at_first_short (page' :: rest)

theorem iterate_fst_eq_join {α : Type} (pages : List (List α)) (start : Nat) :
    (iterate_jql_results pages start).1 = (fetched_pages pages).flatten := by
  induction pages generalizing start with
  | nil => simp [iterate_jql_results, fetched_pages]
  | cons page rest ih =>
    by_cases h : page.length < page_limit
    · simp [iterate_jql_results, fetched_pages, h]
    · simp [iterate_jql_results, fetched_pages, h, ih]

theorem iterate_snd_eq_fetch_log {α : Type} (pages : List (List α)) (start : Nat) :
    (iterate_jql_results pages start).2 = fetch_log start (fetched_pages pages) := by
  induction pages generalizing start with
  | nil => simp [iterate_jql_results, fetched_pages, fetch_log]
  | cons page rest ih =>
    by_cases h : page.length < page_limit
    · simp [iterate_jql_results, fetched_pages, fetch_log, h]
    · simp [iterate_jql_results, fetched_pages, fetch_log, h, ih]

theorem fetched_pages_stops {α : Type} (pages : List (List α)) :
    stops_at_first_short (fetched_pages pages) := by
  induction pages with
  | nil => simp [fetched_pages, stops_at_first_short, page_limit]
  | cons page rest ih =>
    by_cases h : page.length < page_limit
    · simp [fetched_pages, stops_at_first_short, h]
    · simp only [fetched_pages, if_neg h]
      cases hr : fetched_pages rest with
      | nil =>
        cases rest with
        | nil => simp [fetched_pages] at hr
        | cons q qs =>
          simp only [fetched_pages] at hr
          split at hr <;> simp_all
      | cons q qs =>
        rw [hr] at ih
        exact ⟨Nat.le_of_not_lt h, ih⟩

theorem fetched_pages_prefix {α : Type} (pages : List (List α)) :
    ∃ rest, pages ++ [[]] = fetched_pages pages ++ rest := by
  induction pages with
  | nil => exact ⟨[], rfl⟩
  | cons page tl ih =>
    by_cases h : page.length < page_limit
    · exact ⟨tl ++ [[]], by simp [fetched_pages, h]⟩
    · obtain ⟨rest, hrest⟩ := ih
      exact ⟨rest, by simp [fetched_pages, h, hrest]⟩

/-- Concrete backend for the 250-issue scenario: three pages of 100,
100 and 50 records. -/
def pages250 : List (List Nat) :=
  [List.replicate 100 0, List.replicate 100 1, List.replicate 50 2]

set_option maxRecDepth 20000 in
/-- C1: for every sequence of pages returned by the backend, the iterator
yields exactly the concatenation of the fetched pages in order; the fetch
log starts at offset 0 and advances the start offset by the number of
records each fetch returned; the fetched pages are an initial segment of
the backend's pages (possibly plus one final empty page) ending at the
first page shorter than the limit of 100; and in the 250-issue scenario
there are exactly 3 fetches returning 100, 100 and 50 records at offsets
0, 100 and 200, with 250 records yielded in total. -/
theorem iterator_pagination_correct :
    (∀ (α : Type) (pages : List (List α)),
      (iterate_jql_results pages 0).1 = (fetched_pages pages).flatten
      ∧ (iterate_jql_results pages 0).2 = fetch_log 0 (fetched_pages pages)
      ∧ stops_at_first_short (fetched_pages pages)
      ∧ ∃ rest, pages ++ [[]] = fetched_pages pages ++ rest)
    ∧ (iterate_jql_results pages250 0).2 = [(0, 100), (100, 100), (200, 50)]
    ∧ (iterate_jql_results pages250 0).1.length = 250 := by
  refine ⟨fun α pages =>
    ⟨iterate_fst_eq_join pages 0, iterate_snd_eq_fetch_log pages 0,
     fetched_pages_stops pages, fetched_pages_prefix pages⟩, ?_, ?_⟩
  · rfl
  · rfl

/-- C9: a page strictly longer than the limit of 100 is still yielded in
full and in order, the start offset advances by the actual number of
records returned (not by the limit), and iteration continues with the
remaining pages. -/
theorem iterator_overfull_page_continues {α : Type} (page : List α)
    (rest : List (List α)) (start : Nat) (h : page_limit < page.length) :
    iterate_jql_results (page :: rest) start
      = (page ++ (iterate_jql_results rest (start + page.length)).1,
         (start, page.length) :: (iterate_jql_results rest (start + page.length)).2) := by
  have h' : ¬ page.length < page_limit := by omega
  simp [iterate_jql_results, h']

/-- Witness for C9 at a concrete over-full page of 101 records. -/
theorem iterator_overfull_page_continues_witness :
    page_limit < (List.replicate 101 (0 : Nat)).length
    ∧ iterate_jql_results [List.replicate 101 (0 : Nat)] 0
        = (List.replicate 101 0
             ++ (iterate_jql_results ([] : List (List Nat))
                   (0 + (List.replicate 101 (0 : Nat)).length)).1,
           (0, (List.replicate 101 (0 : Nat)).length)
             :: (iterate_jql_results ([] : List (List Nat))
                   (0 + (List.replicate 101 (0 : Nat)).length)).2) :=
  ⟨by decide, iterator_overfull_page_continues (List.replicate 101 0) [] 0 (by decide)⟩

/-- A Jira user reference as consumed here: `{accountId}`. -/
structure UserRef where
  accountId : String
deriving DecidableEq

/-- The issue fields consumed by `process_issue`: `creator` is accessed
with `fields["creator"]` (required), `assignee` and `reporter` with
`fields.get(...)` (optional, may be absent/None). -/
structure IssueFields where
  creator : UserRef
  assignee : Option UserRef
  reporter : Option UserRef
deriving DecidableEq

/-- An issue as consumed by the remap handler: key plus fields. -/
structure Issue where
  key : String
  fields : IssueFields
deriving DecidableEq

/-- The `updates` dict built by `process_issue`: at most one entry per
ownership field, each of the form `{"accountId": target_user_id}`. -/
structure Updates where
  creator : Option UserRef
  assignee : Option UserRef
  reporter : Option UserRef
deriving DecidableEq

/-- Python's `if updates:` truthiness test: the dict is empty iff no
field was staged. -/
def Updates.isEmpty (u : Updates) : Bool :=
  u.creator.isNone && u.assignee.isNone && u.reporter.isNone

/-- The `updates` dict built by `process_issue` (lines 126–141): stage
`creator` when `creator['accountId'] == source_user_id`; stage
`assignee` when it is present and its accountId equals the source; same
for `reporter`; each staged entry maps to `{"accountId": target}`. -/
def build_updates (source_user_id target_user_id : String) (f : IssueFields) : Updates :=
  { creator :=
      if f.creator.accountId = source_user_id then some ⟨target_user_id⟩ else none,
    assignee :=
      match f.assignee with
      | some a => if a.accountId = source_user_id then some ⟨target_user_id⟩ else none
      | none => none,
    reporter :=
      match f.reporter with
      | some r => if r.accountId = source_user_id then some ⟨target_user_id⟩ else none
      | none => none }

/-- A sent `update_issue(key, {'fields': updates})` request. -/
structure UpdateCall where
  key : String
  fields : Updates
deriving DecidableEq

/-- The mutable state of one `remap_user` run: the `issues_updated`
counter and the log of update requests actually sent to the API. -/
structure RemapState where
  issues_updated : Nat
  calls : List UpdateCall
deriving DecidableEq

/-- Embedding of the nested `update_issue(issue, updates)`: in dry-run
(`not apply_changes`) it only logs and returns; otherwise the request is
sent (appended to `calls`); if the remote call raises (`fails key`) the
error is logged and the counter is left alone, else `issues_updated` is
incremented. -/
def update_issue (apply_changes : Bool) (fails : String → Bool)
    (key : String) (updates : Updates) (st : RemapState) : RemapState :=
  if apply_changes = false then st
  else
    let st' : RemapState := { st with calls := st.calls ++ [⟨key, updates⟩] }
    if fails key then st' else { st' with issues_updated := st'.issues_updated + 1 }

/-- Embedding of the nested `process_issue(issue)` of `remap_user`:
build the updates dict and, only when it is non-empty, call
`update_issue` with the combined `{'fields': updates}` payload. -/
def process_issue (source_user_id target_user_id : String) (apply_changes : Bool)
    (fails : String → Bool) (issue : Issue) (st : RemapState) : RemapState :=
  let updates := build_updates source_user_id target_user_id issue.fields
  if updates.isEmpty then st
  else update_issue apply_changes fails issue.key updates st

/-- The scan loop of `remap_user`: process each yielded issue in order,
threading the counter and call log. -/
def remap_scan (source_user_id target_user_id : String) (apply_changes : Bool)
    (fails : String → Bool) (issues : List Issue) (st : RemapState) : RemapState :=
  issues.foldl
    (fun st issue => process_issue source_user_id target_user_id apply_changes fails issue st)
    st

/-- Embedding of `remap_user(...)`: build the query with `get_query`,
iterate the backend's pages for it, process every yielded issue, and log
the final count.  The Python function has no `return` statement, so its
return value is `None`; the pair returned here is (Python return value,
final handler state). -/
def remap_user (source_user_id target_user_id : String) (seed_query : Option String)
    (apply_changes : Bool) (fails : String → Bool)
    (backend : String → List (List Issue)) : Option Nat × RemapState :=
  let query := get_query seed_query none
  let issues := (iterate_jql_results (backend query) 0).1
  (none, remap_scan source_user_id target_user_id apply_changes fails issues ⟨0, []⟩)

theorem update_issue_calls (fails : String → Bool) (k : String) (u : Updates)
    (st : RemapState) :
    (update_issue true fails k u st).calls = st.calls ++ [⟨k, u⟩] := by
  unfold update_issue
  simp only [Bool.true_eq_false, if_false]
  split <;> rfl

theorem update_issue_count (fails : String → Bool) (k : String) (u : Updates)
    (st : RemapState) :
    (update_issue true fails k u st).issues_updated
      = st.issues_updated + (if fails k then 0 else 1) := by
  unfold update_issue
  simp only [Bool.true_eq_false, if_false]
  split <;> simp

theorem process_issue_dry_run (s t : String) (fails : String → Bool) (i : Issue)
    (st : RemapState) :
    process_issue s t false fails i st = st := by
  simp [process_issue, update_issue]

theorem remap_scan_dry_run (s t : String) (fails : String → Bool) (issues : List Issue)
    (st : RemapState) :
    remap_scan s t false fails issues st = st := by
  induction issues generalizing st with
  | nil => rfl
  | cons i rest ih =>
    show remap_scan s t false fails rest (process_issue s t false fails i st) = st
    rw [process_issue_dry_run]
    exact ih st

/-- Specification-side helper: the update requests a remap scan over
`issues` should send — one combined request per issue with a non-empty
updates dict, in scan order. -/
def remap_matched (s t : String) (issues : List Issue) : List UpdateCall :=
  (issues.filter (fun i => !(build_updates s t i.fields).isEmpty)).map
    (fun i => ⟨i.key, build_updates s t i.fields⟩)

theorem remap_scan_closed (s t : String) (fails : String → Bool) (issues : List Issue)
    (st : RemapState) :
    remap_scan s t true fails issues st
      = ⟨st.issues_updated + (remap_matched s t issues).countP (fun c => !fails c.key),
         st.calls ++ remap_matched s t issues⟩ := by
  induction issues generalizing st with
  | nil => simp [remap_scan, remap_matched]
  | cons i rest ih =>
    show remap_scan s t true fails rest (process_issue s t true fails i st) = _
    by_cases he : (build_updates s t i.fields).isEmpty
    · rw [show process_issue s t true fails i st = st by simp [process_issue, he]]
      rw [ih st]
      simp [remap_matched, he]
    · rw [show process_issue s t true fails i st
            = update_issue true fails i.key (build_updates s t i.fields) st by
          simp [process_issue, he]]
      rw [ih]
      have hc := update_issue_calls fails i.key (build_updates s t i.fields) st
      have hn := update_issue_count fails i.key (build_updates s t i.fields) st
      have hm : remap_matched s t (i :: rest)
          = ⟨i.key, build_updates s t i.fields⟩ :: remap_matched s t rest := by
        simp [remap_matched, he]
      rw [hm, hc, hn]
      refine congrArg₂ RemapState.mk ?_ (by simp)
      simp only [List.countP_cons]
      by_cases hf : fails i.key <;> simp [hf]
      omega

/-- Specification-side predicates: the three independent ownership
checks of `process_issue`. -/
def creator_matches (source : String) (f : IssueFields) : Prop :=
  f.creator.accountId = source

/-- The assignee is present and its accountId equals the source. -/
def assignee_matches (source : String) (f : IssueFields) : Prop :=
  ∃ a, f.assignee = some a ∧ a.accountId = source

/-- The reporter is present and its accountId equals the source. -/
def reporter_matches (source : String) (f : IssueFields) : Prop :=
  ∃ r, f.reporter = some r ∧ r.accountId = source

/-- C2: in apply mode an update request is sent for an issue iff its
updates dict is non-empty, and then it is the single combined request
for that issue; the dict is non-empty iff at least one of the three
checks (creator / present assignee / present reporter matching the
source id) holds; each field is staged iff its check matches, and every
staged value is the target user reference — so when all three match the
one request contains all three fields, and when none match no request is
sent. -/
theorem remap_update_sent_iff_matched :
    ∀ (s t k : String) (f : IssueFields) (fails : String → Bool) (st : RemapState),
      (process_issue s t true fails ⟨k, f⟩ st).calls
        = st.calls
            ++ (if (build_updates s t f).isEmpty then []
                else [⟨k, build_updates s t f⟩])
      ∧ ((build_updates s t f).isEmpty = false
          ↔ (creator_matches s f ∨ assignee_matches s f ∨ reporter_matches s f))
      ∧ ((build_updates s t f).creator.isSome = true ↔ creator_matches s f)
      ∧ ((build_updates s t f).assignee.isSome = true ↔ assignee_matches s f)
      ∧ ((build_updates s t f).reporter.isSome = true ↔ reporter_matches s f)
      ∧ (build_updates s t f).creator.getD ⟨t⟩ = ⟨t⟩
      ∧ (build_updates s t f).assignee.getD ⟨t⟩ = ⟨t⟩
      ∧ (build_updates s t f).reporter.getD ⟨t⟩ = ⟨t⟩ := by
  intro s t k f fails st
  have hc : (build_updates s t f).creator.isSome = true ↔ creator_matches s f := by
    by_cases h1 : f.creator.accountId = s <;>
      simp [build_updates, creator_matches, h1]
  have ha : (build_updates s t f).assignee.isSome = true ↔ assignee_matches s f := by
    cases hA : f.assignee with
    | none => simp [build_updates, assignee_matches, hA]
    | some a =>
      by_cases h1 : a.accountId = s <;>
        simp [build_updates, assignee_matches, hA, h1]
  have hr : (build_updates s t f).reporter.isSome = true ↔ reporter_matches s f := by
    cases hR : f.reporter with
    | none => simp [build_updates, reporter_matches, hR]
    | some r =>
      by_cases h1 : r.accountId = s <;>
        simp [build_updates, reporter_matches, hR, h1]
  have he : (build_updates s t f).isEmpty = false
      ↔ (creator_matches s f ∨ assignee_matches s f ∨ reporter_matches s f) := by
    rw [← hc, ← ha, ← hr]
    cases hu : build_updates s t f with
    | mk c a r =>
      cases c <;> cases a <;> cases r <;> simp [Updates.isEmpty]
  refine ⟨?_, he, hc, ha, hr, ?_, ?_, ?_⟩
  · by_cases hE : (build_updates s t f).isEmpty
    · simp [process_issue, hE]
    · simp only [process_issue]
      rw [if_neg hE, update_issue_calls, if_neg hE]
  · by_cases h1 : f.creator.accountId = s <;> simp [build_updates, h1]
  · cases hA : f.assignee with
    | none => simp [build_updates, hA]
    | some a => by_cases h1 : a.accountId = s <;> simp [build_updates, hA, h1]
  · cases hR : f.reporter with
    | none => simp [build_updates, hR]
    | some r => by_cases h1 : r.accountId = s <;> simp [build_updates, hR, h1]

/-- Concrete single-issue backend used to exhibit the return value of
`remap_user`: one short page holding one issue created by the source
user. -/
def backend_c7 : String → List (List Issue) :=
  fun _ => [[⟨"K-1", ⟨⟨"src"⟩, none, none⟩⟩]]

/-- C7 counterexample: in this concrete apply-mode run exactly one
update call succeeded (the final issues_updated counter is 1), yet the
value returned by `remap_user` is None — the Python function has no
return statement — so the returned value does not equal the count of
issues updated. -/
theorem remap_user_return_value_counterexample :
    (remap_user "src" "tgt" none true (fun _ => false) backend_c7).2.issues_updated = 1
    ∧ (remap_user "src" "tgt" none true (fun _ => false) backend_c7).1 = none
    ∧ (remap_user "src" "tgt" none true (fun _ => false) backend_c7).1
        ≠ some ((remap_user "src" "tgt" none true (fun _ => false) backend_c7).2.issues_updated) := by
  refine ⟨rfl, rfl, by decide⟩

/-- C7 amended: `remap_user` returns None rather than the count; the
count it computes and logs — the final `issues_updated` counter — equals
the number of successful update calls performed in the run. -/
theorem remap_user_counts_successful_updates (s t : String) (sq : Option String)
    (apply_changes : Bool) (fails : String → Bool)
    (backend : String → List (List Issue)) :
    (remap_user s t sq apply_changes fails backend).1 = none
    ∧ (remap_user s t sq apply_changes fails backend).2.issues_updated
        = ((remap_user s t sq apply_changes fails backend).2.calls).countP
            (fun c => !fails c.key) := by
  refine ⟨rfl, ?_⟩
  show (remap_scan s t apply_changes fails _ ⟨0, []⟩).issues_updated
    = ((remap_scan s t apply_changes fails _ ⟨0, []⟩).calls).countP (fun c => !fails c.key)
  cases apply_changes with
  | false => rw [remap_scan_dry_run]; simp
  | true => rw [remap_scan_closed]; simp

/-- The result of applying a sent update request's `fields` payload to
an issue's fields: each staged field is overwritten with the staged user
reference, every other field is left unchanged. -/
def apply_updates (u : Updates) (f : IssueFields) : IssueFields :=
  { creator := u.creator.getD f.creator,
    assignee := match u.assignee with | some a => some a | none => f.assignee,
    reporter := match u.reporter with | some r => some r | none => f.reporter }

/-- Concrete fields for the C8 counterexample: the creator is user "u",
no assignee, no reporter. -/
def fields_c8 : IssueFields := ⟨⟨"u"⟩, none, none⟩

/-- C8 counterexample: with source_id = target_id = "u" and an issue
created by "u", the apply-mode remap scan sends an update request whose
application leaves the issue's fields unchanged — a no-op update is
sent, contradicting the claim for source_id = target_id. -/
theorem remap_noop_update_sent_counterexample :
    (remap_scan "u" "u" true (fun _ => false) [⟨"K-1", fields_c8⟩] ⟨0, []⟩).calls
      = [⟨"K-1", build_updates "u" "u" fields_c8⟩]
    ∧ (build_updates "u" "u" fields_c8).isEmpty = false
    ∧ apply_updates (build_updates "u" "u" fields_c8) fields_c8 = fields_c8 :=
  ⟨rfl, rfl, rfl⟩

/-- C8 amended: an update request is constructed only when at least one
ownership field matches the source id (`process_issue` skips issues with
an empty updates dict), and whenever source_id ≠ target_id a constructed
request is never a no-op: applying it changes at least one field.  (When
source_id = target_id the code can send a no-op request.) -/
theorem remap_no_noop_when_ids_differ (s t : String) (f : IssueFields)
    (hst : s ≠ t) (hne : (build_updates s t f).isEmpty = false) :
    apply_updates (build_updates s t f) f ≠ f := by
  intro hEq
  have hc := congrArg IssueFields.creator hEq
  have ha := congrArg IssueFields.assignee hEq
  have hr := congrArg IssueFields.reporter hEq
  by_cases h1 : f.creator.accountId = s
  · have : f.creator = ⟨t⟩ := by
      simpa [apply_updates, build_updates, h1] using hc.symm
    exact hst (by rw [this] at h1; exact h1.symm)
  · cases hA : f.assignee with
    | some a =>
      by_cases h2 : a.accountId = s
      · have : f.assignee = some ⟨t⟩ := by
          simpa [apply_updates, build_updates, hA, h2] using ha.symm
        rw [hA] at this
        have : a = ⟨t⟩ := by injection this
        exact hst (by rw [this] at h2; exact h2.symm)
      · cases hR : f.reporter with
        | some r =>
          by_cases h3 : r.accountId = s
          · have : f.reporter = some ⟨t⟩ := by
              simpa [apply_updates, build_updates, hR, h3] using hr.symm
            rw [hR] at this
            have : r = ⟨t⟩ := by injection this
            exact hst (by rw [this] at h3; exact h3.symm)
          · simp [build_updates, Updates.isEmpty, h1, h2, h3, hA, hR] at hne
        | none => simp [build_updates, Updates.isEmpty, h1, h2, hA, hR] at hne
    | none =>
      cases hR : f.reporter with
      | some r =>
        by_cases h3 : r.accountId = s
        · have : f.reporter = some ⟨t⟩ := by
            simpa [apply_updates, build_updates, hR, h3] using hr.symm
          rw [hR] at this
          have : r = ⟨t⟩ := by injection this
          exact hst (by rw [this] at h3; exact h3.symm)
        · simp [build_updates, Updates.isEmpty, h1, h3, hA, hR] at hne
      | none => simp [build_updates, Updates.isEmpty, h1, hA, hR] at hne

/-- Witness for the amended C8 at a concrete input: source "a", target
"b", an issue created by "a". -/
theorem remap_no_noop_when_ids_differ_witness :
    ("a" : String) ≠ "b"
    ∧ (build_updates "a" "b" ⟨⟨"a"⟩, none, none⟩).isEmpty = false
    ∧ apply_updates (build_updates "a" "b" ⟨⟨"a"⟩, none, none⟩) ⟨⟨"a"⟩, none, none⟩
        ≠ ⟨⟨"a"⟩, none, none⟩ :=
  ⟨by decide, by decide,
   remap_no_noop_when_ids_differ "a" "b" ⟨⟨"a"⟩, none, none⟩ (by decide) (by decide)⟩

/-- The filter string `'watcher = "%s"' % user_id` built by
`copy_watchers` for both its queries. -/
def watching_query (user_id : String) : String :=
  "watcher = \"" ++ user_id ++ "\""

/-- The mutable state of one `copy_watchers` run: the `issues_updated`
counter and the log of `issue_add_watcher(key, account_id)` calls
actually sent. -/
structure CopyState where
  issues_updated : Nat
  add_watcher_calls : List (String × String)
deriving DecidableEq

/-- Embedding of the nested `process_issue(issue)` of `copy_watchers`:
in dry-run it only logs; otherwise the add-watcher call is sent; if the
remote call raises (`fails key`) the error is logged, else the counter
is incremented. -/
def copy_process_issue (target_user_id : String) (apply_changes : Bool)
    (fails : String → Bool) (key : String) (st : CopyState) : CopyState :=
  if apply_changes = false then st
  else
    let st' : CopyState :=
      { st with add_watcher_calls := st.add_watcher_calls ++ [(key, target_user_id)] }
    if fails key then st' else { st' with issues_updated := st'.issues_updated + 1 }

/-- The copy-phase loop of `copy_watchers`: for each yielded issue key,
skip it when it is already in the snapshot set of keys the target user
watches, otherwise process it.  `copy_watchers` only ever reads
`issue['key']`, so issues are modelled by their keys. -/
def copy_scan (target_user_id : String) (apply_changes : Bool) (fails : String → Bool)
    (target_user_watching_keys : List String) (keys : List String)
    (st : CopyState) : CopyState :=
  keys.foldl
    (fun st key =>
      if key ∈ target_user_watching_keys then st
      else copy_process_issue target_user_id apply_changes fails key st)
    st

/-- Embedding of `copy_watchers(...)`: build the two watcher queries,
snapshot the keys the target user watches (first full scan), then scan
the issues the source user watches and add the target as watcher to
those not in the snapshot.  The backend maps a query string to the pages
it returns to successive fetches. -/
def copy_watchers (source_user_id target_user_id : String) (apply_changes : Bool)
    (fails : String → Bool) (backend : String → List (List String)) : CopyState :=
  let source_user_watching_query := watching_query source_user_id
  let target_user_watching_query := watching_query target_user_id
  let target_user_watching_keys :=
    (iterate_jql_results (backend target_user_watching_query) 0).1
  copy_scan target_user_id apply_changes fails target_user_watching_keys
    ((iterate_jql_results (backend source_user_watching_query) 0).1) ⟨0, []⟩

theorem copy_process_issue_dry_run (t : String) (fails : String → Bool) (k : String)
    (st : CopyState) :
    copy_process_issue t false fails k st = st := by
  simp [copy_process_issue]

theorem copy_scan_dry_run (t : String) (fails : String → Bool)
    (snapshot keys : List String) (st : CopyState) :
    copy_scan t false fails snapshot keys st = st := by
  induction keys generalizing st with
  | nil => rfl
  | cons k ks ih =>
    show copy_scan t false fails snapshot ks
      (if k ∈ snapshot then st else copy_process_issue t false fails k st) = st
    rw [copy_process_issue_dry_run, ite_self]
    exact ih st

/-- Specification-side helper: the add-watcher calls a copy scan should
send — one per source-watched key not in the snapshot, in scan order. -/
def copy_matched (target : String) (snapshot keys : List String) :
    List (String × String) :=
  (keys.filter (fun k => !(decide (k ∈ snapshot)))).map (fun k => (k, target))

theorem copy_scan_closed (t : String) (fails : String → Bool)
    (snapshot keys : List String) (st : CopyState) :
    copy_scan t true fails snapshot keys st
      = ⟨st.issues_updated + (copy_matched t snapshot keys).countP (fun c => !fails c.1),
         st.add_watcher_calls ++ copy_matched t snapshot keys⟩ := by
  induction keys generalizing st with
  | nil => simp [copy_scan, copy_matched]
  | cons k ks ih =>
    show copy_scan t true fails snapshot ks
      (if k ∈ snapshot then st else copy_process_issue t true fails k st) = _
    by_cases hm : k ∈ snapshot
    · rw [if_pos hm, ih st]
      simp [copy_matched, hm]
    · rw [if_neg hm, ih]
      have hmm : copy_matched t snapshot (k :: ks)
          = (k, t) :: copy_matched t snapshot ks := by
        simp [copy_matched, hm]
      rw [hmm]
      simp only [copy_process_issue, Bool.true_eq_false, if_false, List.countP_cons]
      refine congrArg₂ CopyState.mk ?_ ?_
      · by_cases hf : fails k <;> simp [hf]
        omega
      · by_cases hf : fails k <;> simp [hf]

theorem copy_scan_all_in_snapshot (t : String) (apply_changes : Bool)
    (fails : String → Bool) (snapshot keys : List String) (st : CopyState)
    (h : ∀ k ∈ keys, k ∈ snapshot) :
    copy_scan t apply_changes fails snapshot keys st = st := by
  induction keys generalizing st with
  | nil => rfl
  | cons k ks ih =>
    show copy_scan t apply_changes fails snapshot ks
      (if k ∈ snapshot then st else copy_process_issue t apply_changes fails k st) = st
    rw [if_pos (h k (List.mem_cons_self k ks))]
    exact ih st fun k' hk' => h k' (List.mem_cons_of_mem k hk')

/-- C3: with apply_changes = false (dry-run, the default) neither
handler sends a single mutating call — no update_issue request, no
add-watcher request — and both issues_updated counters stay zero, for
every backend and any failure behaviour. -/
theorem dry_run_never_mutates :
    ∀ (s t : String) (sq : Option String) (fails : String → Bool)
      (rbackend : String → List (List Issue)) (wbackend : String → List (List String)),
      (remap_user s t sq false fails rbackend).2.calls = []
      ∧ (remap_user s t sq false fails rbackend).2.issues_updated = 0
      ∧ (copy_watchers s t false fails wbackend).add_watcher_calls = []
      ∧ (copy_watchers s t false fails wbackend).issues_updated = 0 := by
  intro s t sq fails rbackend wbackend
  refine ⟨?_, ?_, ?_, ?_⟩
  · show (remap_scan s t false fails _ ⟨0, []⟩).calls = []
    rw [remap_scan_dry_run]
  · show (remap_scan s t false fails _ ⟨0, []⟩).issues_updated = 0
    rw [remap_scan_dry_run]
  · show (copy_scan t false fails _ _ ⟨0, []⟩).add_watcher_calls = []
    rw [copy_scan_dry_run]
  · show (copy_scan t false fails _ _ ⟨0, []⟩).issues_updated = 0
    rw [copy_scan_dry_run]

/-- C6: in apply mode a failing single-issue mutation is non-fatal: the
sequence of requests sent (by either handler) is the same as when no
mutation fails — later issues are still processed — and each final
issues_updated counter equals the number of mutations that succeeded. -/
theorem mutation_failures_are_isolated :
    ∀ (s t : String) (sq : Option String) (fails : String → Bool)
      (rbackend : String → List (List Issue)) (wbackend : String → List (List String)),
      (remap_user s t sq true fails rbackend).2.calls
        = (remap_user s t sq true (fun _ => false) rbackend).2.calls
      ∧ (remap_user s t sq true fails rbackend).2.issues_updated
        = ((remap_user s t sq true fails rbackend).2.calls).countP (fun c => !fails c.key)
      ∧ (copy_watchers s t true fails wbackend).add_watcher_calls
        = (copy_watchers s t true (fun _ => false) wbackend).add_watcher_calls
      ∧ (copy_watchers s t true fails wbackend).issues_updated
        = ((copy_watchers s t true fails wbackend).add_watcher_calls).countP
            (fun c => !fails c.1) := by
  intro s t sq fails rbackend wbackend
  refine ⟨?_, ?_, ?_, ?_⟩
  · show (remap_scan s t true fails _ ⟨0, []⟩).calls
      = (remap_scan s t true (fun _ => false) _ ⟨0, []⟩).calls
    rw [remap_scan_closed, remap_scan_closed]
  · show (remap_scan s t true fails _ ⟨0, []⟩).issues_updated
      = ((remap_scan s t true fails _ ⟨0, []⟩).calls).countP (fun c => !fails c.key)
    rw [remap_scan_closed]
    simp
  · show (copy_scan t true fails _ _ ⟨0, []⟩).add_watcher_calls
      = (copy_scan t true (fun _ => false) _ _ ⟨0, []⟩).add_watcher_calls
    rw [copy_scan_closed, copy_scan_closed]
  · show (copy_scan t true fails _ _ ⟨0, []⟩).issues_updated
      = ((copy_scan t true fails _ _ ⟨0, []⟩).add_watcher_calls).countP (fun c => !fails c.1)
    rw [copy_scan_closed]
    simp

/-- Backend for the watcher-copy scenario before the first run: the
source user watches A, B and C; the target user watches only B. -/
def backend_c4_before : String → List (List String) := fun q =>
  if q = watching_query "tgt" then [["B"]]
  else if q = watching_query "src" then [["A", "B", "C"]]
  else []

/-- The same backend after the first apply-mode run added the target as
a watcher of A and C: the target user now watches B, A and C. -/
def backend_c4_after : String → List (List String) := fun q =>
  if q = watching_query "tgt" then [["B", "A", "C"]]
  else if q = watching_query "src" then [["A", "B", "C"]]
  else []

/-- C4: the watcher-copy handler is idempotent.  Generally: for any
snapshot of keys the target watches and any list of source-watched keys,
running the apply-mode scan once and then again against the enlarged
watch set produces zero add-watcher calls the second time and leaves the
final watch set unchanged.  Concretely: with source watching A, B, C and
target watching B, the first run adds exactly A and C, and a second run
against the resulting state performs zero additions. -/
theorem copy_watchers_idempotent :
    (∀ (t : String) (target_watched source_watched : List String),
      (copy_scan t true (fun _ => false)
          (target_watched
            ++ ((copy_scan t true (fun _ => false) target_watched source_watched
                  ⟨0, []⟩).add_watcher_calls).map Prod.fst)
          source_watched ⟨0, []⟩).add_watcher_calls = []
      ∧ (copy_scan t true (fun _ => false)
          (target_watched
            ++ ((copy_scan t true (fun _ => false) target_watched source_watched
                  ⟨0, []⟩).add_watcher_calls).map Prod.fst)
          source_watched ⟨0, []⟩).issues_updated = 0)
    ∧ (copy_watchers "src" "tgt" true (fun _ => false) backend_c4_before).add_watcher_calls
        = [("A", "tgt"), ("C", "tgt")]
    ∧ (copy_watchers "src" "tgt" true (fun _ => false) backend_c4_after).add_watcher_calls
        = [] := by
  refine ⟨fun t target_watched source_watched => ?_, by decide, by decide⟩
  have hnil : ∀ k ∈ source_watched,
      k ∈ target_watched
        ++ ((copy_scan t true (fun _ => false) target_watched source_watched
              ⟨0, []⟩).add_watcher_calls).map Prod.fst := by
    intro k hk
    rw [copy_scan_closed]
    by_cases hmem : k ∈ target_watched
    · exact List.mem_append_left _ hmem
    · refine List.mem_append_right _ ?_
      simp only [List.nil_append, copy_matched, List.map_map]
      refine List.mem_map.mpr ⟨k, ?_, rfl⟩
      exact List.mem_filter.mpr ⟨hk, by simp [hmem]⟩
  rw [copy_scan_all_in_snapshot _ _ _ _ _ _ hnil]
  exact ⟨rfl, rfl⟩

/-- C10: when source and target are the same user the snapshot query and
the copy-phase query are the identical string, so the copy phase sees
exactly the keys of the snapshot set and skips every one of them: zero
add-watcher calls and a zero counter, in every mode and for every
backend. -/
theorem copy_watchers_same_user_adds_nothing :
    ∀ (uid : String) (apply_changes : Bool) (fails : String → Bool)
      (backend : String → List (List String)),
      (copy_watchers uid uid apply_changes fails backend).add_watcher_calls = []
      ∧ (copy_watchers uid uid apply_changes fails backend).issues_updated = 0 := by
  intro uid apply_changes fails backend
  have h : copy_watchers uid uid apply_changes fails backend = ⟨0, []⟩ := by
    show copy_scan uid apply_changes fails
      ((iterate_jql_results (backend (watching_query uid)) 0).1)
      ((iterate_jql_results (backend (watching_query uid)) 0).1) ⟨0, []⟩ = ⟨0, []⟩
    exact copy_scan_all_in_snapshot _ _ _ _ _ _ (fun k hk => hk)
  rw [h]
  exact ⟨rfl, rfl⟩

/-- C5: the built filter is the seed (empty string when the seed is
absent) with the sort clause appended; with no cutoff — and likewise
with a falsy empty-string cutoff — the result is exactly the seed
followed by " ORDER BY Updated ASC" (so the seed "project = X" yields
exactly "project = X ORDER BY Updated ASC"); with a non-empty cutoff
present, the clause Updated >= "<cutoff>" is appended before the same
ascending sort clause. -/
theorem get_query_builds_expected_filter :
    (∀ seed : Option String,
      get_query seed none = seed.getD "" ++ " ORDER BY Updated ASC")
    ∧ (∀ seed : Option String,
      get_query seed (some "") = seed.getD "" ++ " ORDER BY Updated ASC")
    ∧ get_query (some "project = X") none = "project = X ORDER BY Updated ASC"
    ∧ (∀ (seed : Option String) (c : String), c ≠ "" →
        get_query seed (some c)
          = seed.getD "" ++ (" Updated >= \"" ++ c ++ "\"")
              ++ " ORDER BY Updated ASC") := by
  refine ⟨fun seed => rfl, fun seed => rfl, by decide, fun seed c hc => ?_⟩
  have hlit : ("\" ORDER BY Updated ASC" : String) = "\"" ++ " ORDER BY Updated ASC" := by
    decide
  show (if str_truthy (some c) then
          seed.getD "" ++ (" Updated >= \"" ++ (some c).getD "" ++ "\" ORDER BY Updated ASC")
        else seed.getD "" ++ " ORDER BY Updated ASC") = _
  have ht : str_truthy (some c) = true := by
    simp [str_truthy, hc]
  simp only [ht, if_true, Option.getD_some]
  simp only [String.append_assoc]
  rw [hlit]

/-- Witness for C5's non-empty-cutoff case at a concrete cutoff
timestamp. -/
theorem get_query_builds_expected_filter_witness :
    ("2024-01-01" : String) ≠ ""
    ∧ get_query (some "project = X") (some "2024-01-01")
        = (some "project = X" : Option String).getD ""
            ++ (" Updated >= \"" ++ "2024-01-01" ++ "\"") ++ " ORDER BY Updated ASC" :=
  ⟨by decide,
   get_query_builds_expected_filter.2.2.2 (some "project = X") "2024-01-01" (by decide)⟩

end AtlassianToolkit
